import Mathlib

/-!
Shallow embedding of the vector-collection core (HNSW index) of this
repository, together with theorems settling the frozen claims about it.

Sources embedded from the repository:
* src/src/func/distance.rs  : the `Distance` kernels and `calculate`.
* src/src/func/collection.rs: `Config`, `Collection` and its operations
  (`new`, `build`, `insert`, `insert_many`, `update`, `delete`, `search`,
  `true_search`, `delete_from_layers`, `insert_to_layers`,
  `truncate_irrelevant_result`, `validate_dimension`, `contains`).

Parts of the repository referenced by that code but absent from src/
(vector.rs, metadata.rs, err.rs and the HNSW search engine in search.rs)
are modelled from the specification; every such definition carries a doc
comment starting with "Modelled from the spec:".

Modelling conventions:
* `f32` scalars are modelled as exact rationals (`ℚ`).  `f32::sqrt` has no
  exact rational counterpart, so every definition that needs it is
  parameterised by a function `sq : ℚ → ℚ` standing for the square-root
  routine; no theorem below depends on its values.
* Rust panics (out-of-bounds indexing, `records[0]` on an empty slice) are
  modelled by `Option`: `none` is a panic.  Fallible operations return
  `Except Err` inside that layer.
* `HashMap` fields are modelled as association lists kept in insertion
  order; `Vec` fields as `List`.
-/

namespace VectorDB

/-- Modelled from the spec: `VectorID` wraps a `u32` (src/src/func/vector.rs
is absent from src/).  Modelled as a natural number below `2^32`. -/
abbrev VectorID := ℕ

/-- Modelled from the spec: the sentinel `INVALID = 2^32 - 1` marking empty
neighbor slots and deleted slot entries. -/
def INVALID : VectorID := 4294967295

/-- Modelled from the spec: a VectorID is valid iff it is not `INVALID`. -/
def VectorID.isValid (id : VectorID) : Bool := id != INVALID

/-- The value of `u32::MAX as usize` used by the capacity guards of
`Collection::insert` and `Collection::insert_many`. -/
def U32MAX : ℕ := 4294967295

/-- Modelled from the spec: a vector is an ordered sequence of `f32` of
fixed length (vector.rs is absent from src/); `f32` components are
modelled as exact rationals. -/
abbrev Vec32 := List ℚ

/-- Modelled from the spec: metadata is an opaque clonable payload never
inspected by the core (metadata.rs is absent from src/); modelled as an
integer payload. -/
abbrev Metadata := ℤ

/-- The distance function enum of src/src/func/distance.rs. -/
inductive Distance
  | dot
  | euclidean
  | cosine
deriving DecidableEq, Repr

/-- `Distance::dot`: sum of elementwise products (src/src/func/distance.rs
lines 41-44). -/
def Distance.dotProduct (a b : Vec32) : ℚ :=
  ((a.zip b).map (fun p => p.1 * p.2)).sum

/-- `Distance::cosine` (src/src/func/distance.rs lines 46-51); `sq` stands
for `f32::sqrt`. -/
def Distance.cosineSim (sq : ℚ → ℚ) (a b : Vec32) : ℚ :=
  let d := Distance.dotProduct a b
  let ma := sq ((a.map (fun x => x ^ 2)).sum)
  let mb := sq ((b.map (fun y => y ^ 2)).sum)
  d / (ma * mb)

/-- `Distance::euclidean` (src/src/func/distance.rs lines 53-56); `sq`
stands for `f32::sqrt`. -/
def Distance.euclideanDist (sq : ℚ → ℚ) (a b : Vec32) : ℚ :=
  sq (((a.zip b).map (fun p => (p.1 - p.2) ^ 2)).sum)

/-- `Distance::calculate` (src/src/func/distance.rs lines 30-38).  The
source asserts that the lengths agree (`assert_eq!`) and panics otherwise;
the panic is modelled by `none`. -/
def Distance.calculate (sq : ℚ → ℚ) (d : Distance) (a b : Vec32) :
    Option ℚ :=
  if a.length = b.length then
    some (match d with
      | Distance.dot => Distance.dotProduct a b
      | Distance.euclidean => Distance.euclideanDist sq a b
      | Distance.cosine => Distance.cosineSim sq a b)
  else none

/-- Total wrapper around `Distance.calculate` used where the source calls
`calculate` on vectors whose lengths are equal by construction (the
asserted branch is unreachable there). -/
def Distance.calc (sq : ℚ → ℚ) (d : Distance) (a b : Vec32) : ℚ :=
  (Distance.calculate sq d a b).getD 0

/-- Modelled from the spec: the error kinds of §7 (err.rs is absent from
src/); the source carries string messages, only the kind matters here. -/
inductive Err
  | collectionLimit
  | invalidDimension (found expected : ℕ)
  | inconsistentDimension (expected : ℕ)
  | recordNotFound
  | collectionNotEmpty
  | unsupportedDistance
  | unableToInitiateSearch
deriving DecidableEq, Repr

/-- Modelled from the spec: `M` is the fixed neighbor-arity design constant
(spec §3 recommends 32; the node types are absent from src/). -/
def M : ℕ := 32

/-- Modelled from the spec: a `BaseNode` is a fixed array of `2 * M`
neighbor VectorIDs, initialized to `INVALID`, packed to the left. -/
structure BaseNode where
  nbrs : List VectorID
deriving DecidableEq, Repr

/-- Modelled from the spec: the default `BaseNode`, all slots `INVALID`. -/
def BaseNode.init : BaseNode := ⟨List.replicate (2 * M) INVALID⟩

/-- Modelled from the spec: replacement at an index (`BaseNode::set`,
called by `Collection::delete_from_layers`). -/
def BaseNode.set (n : BaseNode) (i : ℕ) (v : VectorID) : BaseNode :=
  ⟨n.nbrs.set i v⟩

/-- Modelled from the spec: an `UpperNode` holds `M` neighbor VectorIDs. -/
structure UpperNode where
  nbrs : List VectorID
deriving DecidableEq, Repr

/-- Modelled from the spec: `UpperNode::from_zero` copies the first `M`
entries of a `BaseNode`. -/
def UpperNode.fromZero (b : BaseNode) : UpperNode := ⟨b.nbrs.take M⟩

/-- Modelled from the spec: replacement at an index (`UpperNode::set`,
called by `Collection::delete_from_layers`). -/
def UpperNode.set (n : UpperNode) (i : ℕ) (v : VectorID) : UpperNode :=
  ⟨n.nbrs.set i v⟩

/-- The collection HNSW index configuration
(src/src/func/collection.rs lines 6-19); `ml` is an `f32`, modelled as a
rational. -/
structure Config where
  efConstruction : ℕ
  efSearch : ℕ
  ml : ℚ
  distance : Distance
deriving DecidableEq, Repr

/-- `Config::default` (src/src/func/collection.rs lines 57-71). -/
def Config.init : Config :=
  { efConstruction := 40, efSearch := 15, ml := 3 / 10,
    distance := Distance.euclidean }

/-- A record: a vector together with its metadata
(src/src/func/collection.rs lines 699-706). -/
structure Rec where
  vector : Vec32
  data : Metadata
deriving DecidableEq, Repr

/-- The collection of vector records with HNSW indexing
(src/src/func/collection.rs lines 76-92).  The two `HashMap` fields are
modelled as association lists in insertion order. -/
structure Collection where
  config : Config
  relevancy : ℚ
  data : List (VectorID × Metadata)
  vectors : List (VectorID × Vec32)
  slots : List VectorID
  baseLayer : List BaseNode
  upperLayers : List (List UpperNode)
  count : ℕ
  dimension : ℕ
deriving DecidableEq, Repr

/-- Association-list lookup, modelling `HashMap` indexing / `get`. -/
def alookup {α : Type} (l : List (VectorID × α)) (id : VectorID) :
    Option α :=
  (l.find? (fun p => p.1 == id)).map (fun p => p.2)

/-- Association-list insert, modelling `HashMap::insert` (replace the
binding when the key is present, append otherwise). -/
def ainsert {α : Type} (l : List (VectorID × α)) (id : VectorID) (v : α) :
    List (VectorID × α) :=
  if l.any (fun p => p.1 == id) then
    l.map (fun p => if p.1 == id then (id, v) else p)
  else l ++ [(id, v)]

/-- Association-list removal, modelling `HashMap::remove`. -/
def aremove {α : Type} (l : List (VectorID × α)) (id : VectorID) :
    List (VectorID × α) :=
  l.filter (fun p => p.1 != id)

/-- `Collection::new` (src/src/func/collection.rs lines 109-121). -/
def Collection.new (config : Config) : Collection :=
  { config := config, relevancy := -1, data := [], vectors := [],
    slots := [], baseLayer := [], upperLayers := [], count := 0,
    dimension := 0 }

/-- `Collection::contains` (src/src/func/collection.rs lines 392-394):
membership in the `vectors` map. -/
def Collection.contains (c : Collection) (id : VectorID) : Bool :=
  (alookup c.vectors id).isSome

/-- `Collection::validate_dimension`
(src/src/func/collection.rs lines 591-600). -/
def Collection.validateDimension (c : Collection) (v : Vec32) :
    Except Err Unit :=
  if v.length ≠ c.dimension then
    Except.error (Err.invalidDimension v.length c.dimension)
  else Except.ok ()

/-- Modelled from the spec: a heap entry of the search engine — a VectorID
paired with its distance to the query (search.rs is absent from src/). -/
structure Candidate where
  distance : ℚ
  vectorId : VectorID
deriving DecidableEq, Repr

/-- Modelled from the spec: the comparator of the search engine — ascending
computed distance, ties broken by ascending VectorID.  No sign flip is
applied: `Collection::search` (in src/) exposes `candidate.distance.0`
directly to callers and `truncate_irrelevant_result` treats the stored
distances as raw kernel values. -/
def candLE (a b : Candidate) : Bool :=
  if a.distance = b.distance then a.vectorId ≤ b.vectorId
  else a.distance < b.distance

/-- Insertion into a list kept sorted under a boolean comparator; the
building block of the stable sort used to model the source's sorted
structures (Rust's stable `sort_by` and the sorted-list model of the
engine's heaps). -/
def insertSorted {α : Type} (le : α → α → Bool) (x : α) :
    List α → List α
  | [] => [x]
  | y :: ys => if le x y then x :: y :: ys else y :: insertSorted le x ys

/-- Stable insertion sort under a boolean comparator, modelling Rust's
stable `sort_by`. -/
def sortByLe {α : Type} (le : α → α → Bool) (l : List α) : List α :=
  l.foldr (insertSorted le) []

/-- Modelled from the spec: insert into a list kept sorted under `candLE`
(the sorted-list model of the candidate min-heap / nearest max-heap). -/
def heapInsert (x : Candidate) (l : List Candidate) : List Candidate :=
  insertSorted candLE x l

/-- Modelled from the spec (§4.4): the per-query search state — a visited
set, a candidate min-heap and a size-bounded nearest heap, both modelled
as lists sorted under `candLE`. -/
structure SearchState where
  visited : List VectorID
  candidates : List Candidate
  nearest : List Candidate
deriving DecidableEq, Repr

/-- Modelled from the spec: the worst (largest-comparator) entry currently
in the nearest heap. -/
def SearchState.worst (st : SearchState) : Option Candidate :=
  st.nearest.getLast?

/-- Modelled from the spec (§4.4 step 1c): examine one neighbor — skip it
when already visited, otherwise mark it visited, compute its distance and
push it into both heaps when the nearest heap is not full or the distance
beats the current worst, trimming the nearest heap to `ef`. -/
def visitNeighbor (distQ : VectorID → ℚ) (ef : ℕ) (st : SearchState)
    (n : VectorID) : SearchState :=
  if st.visited.contains n then st
  else
    let st := { st with visited := n :: st.visited }
    let d := distQ n
    let full : Bool := st.nearest.length ≥ ef
    let beats : Bool := match st.worst with
      | some w => d < w.distance
      | none => true
    if !full || beats then
      let cand : Candidate := ⟨d, n⟩
      { st with candidates := heapInsert cand st.candidates,
                nearest := (heapInsert cand st.nearest).take ef }
    else st

/-- Modelled from the spec (§4.4): bounded best-first search on one layer.
`layer` maps a VectorID to its neighbor list, `cap` is the expansion cap
(`2 * M` at the base layer, `M` above), `fuel` bounds the loop (any value
at least the number of reachable nodes makes the recursion run to the
empty-frontier fixpoint). -/
def searchLayer (distQ : VectorID → ℚ) (layer : List (List VectorID))
    (cap ef : ℕ) : ℕ → SearchState → SearchState
  | 0, st => st
  | fuel + 1, st =>
    match st.candidates with
    | [] => st
    | c :: rest =>
      let stop : Bool := st.nearest.length ≥ ef &&
        (match st.worst with
          | some w => c.distance > w.distance
          | none => false)
      if stop then st
      else
        let nbrs :=
          ((layer.getD c.vectorId []).takeWhile
            (fun x => VectorID.isValid x)).take cap
        let st := { st with candidates := rest }
        searchLayer distQ layer cap ef fuel
          (nbrs.foldl (visitNeighbor distQ ef) st)

/-- Modelled from the spec (§4.4): the neighbor lists of one layer; layer 0
is the base layer, layer `L > 0` is `upper_layers[L - 1]`. -/
def layerNodes (base : List BaseNode) (uppers : List (List UpperNode))
    (layer : ℕ) : List (List VectorID) :=
  if layer = 0 then base.map (fun n => n.nbrs)
  else (uppers.getD (layer - 1) []).map (fun n => n.nbrs)

/-- Modelled from the spec (§4.4): layer descent.  Starting from the seed,
run the bounded search on each layer from the top down to the base with
`ef = 5` above the base and `ef = efBase` at the base, culling the nearest
heap to its single best element between layers.  Returns the final state
after the base layer. -/
def descendLayers (distQ : VectorID → ℚ) (base : List BaseNode)
    (uppers : List (List UpperNode)) (efBase : ℕ) (seed : VectorID) :
    SearchState :=
  let seedCand : Candidate := ⟨distQ seed, seed⟩
  let fuel := base.length * (2 * M + 1) + 1
  let start : SearchState :=
    ⟨[seed], [seedCand], [seedCand]⟩
  let layers := (List.range (uppers.length + 1)).reverse
  layers.foldl
    (fun st layer =>
      let ef := if layer = 0 then efBase else 5
      let cap := if layer = 0 then 2 * M else M
      let st := searchLayer distQ (layerNodes base uppers layer) cap ef
        fuel st
      if layer ≠ 0 then
        let best := st.nearest.take 1
        { st with candidates := best, nearest := best }
      else st)
    start

/-- Modelled from the spec (§4.4): iterating the nearest heap from best to
worst once traversal ends (`Search::iter`). -/
def SearchState.results (st : SearchState) : List Candidate :=
  sortByLe candLE st.nearest

/-- Modelled from the spec (§4.3): insertion into a neighbor list kept
sorted nearest-first against its owner, with capacity `cap`: ignore the id
when already present, otherwise insert by distance into the valid packed
prefix, drop the farthest entry when the list overflows, and pad with
`INVALID` back to the fixed width. -/
def linkInsert (distTo : VectorID → ℚ) (cap : ℕ) (nbrs : List VectorID)
    (v : VectorID) : List VectorID :=
  let valid := nbrs.takeWhile (fun x => VectorID.isValid x)
  if valid.contains v then nbrs
  else
    let merged := (heapInsert ⟨distTo v, v⟩
      (valid.map (fun x => ⟨distTo x, x⟩))).map (fun c => c.vectorId)
    let kept := merged.take cap
    kept ++ List.replicate (cap - kept.length) INVALID

/-- Modelled from the spec (§4.3): add the directed link `u → v` in the
base layer, via `linkInsert` on node `u` with capacity `2 * M`. -/
def addLink (sq : ℚ → ℚ) (cfg : Config) (vectors : List (VectorID × Vec32))
    (base : List BaseNode) (u v : VectorID) : List BaseNode :=
  let uVec := (alookup vectors u).getD []
  let distTo := fun w =>
    Distance.calc sq cfg.distance uVec ((alookup vectors w).getD [])
  match base.get? u with
  | none => base
  | some node => base.set u ⟨linkInsert distTo (2 * M) node.nbrs v⟩

/-- Modelled from the spec (§4.3, `IndexConstruction::insert` of search.rs,
absent from src/): insert one id into the layered graph.  Seed at the
global entry point (the first id, spec §4.4 seeds at the first valid slot),
descend to the base layer with `ef = ef_construction`, select the top
`min(ef_construction, 2 * M)` candidates and add each link bidirectionally
with displacement of the farthest neighbor.  Per the source only base-layer
nodes are written (`insert_to_layers` holds `upper_layers` behind a shared
reference). -/
def insertIntoLayers (sq : ℚ → ℚ) (cfg : Config)
    (vectors : List (VectorID × Vec32)) (base : List BaseNode)
    (uppers : List (List UpperNode)) (id : VectorID) : List BaseNode :=
  let q := (alookup vectors id).getD []
  let distQ := fun w =>
    Distance.calc sq cfg.distance q ((alookup vectors w).getD [])
  match vectors.find? (fun p => p.1 ≠ id) with
  | none => base
  | some seedEntry =>
    let st := descendLayers distQ base uppers cfg.efConstruction
      seedEntry.1
    let cands := (st.results.take (min cfg.efConstruction (2 * M))).map
      (fun c => c.vectorId)
    cands.foldl
      (fun b c =>
        if c = id then b
        else addLink sq cfg vectors (addLink sq cfg vectors b c id) id c)
      base

/-- `Collection::insert_to_layers` (src/src/func/collection.rs lines
603-637): push a default base node per new id, then run the construction
insert for each id against the live graph; only `base_layer` is written. -/
def Collection.insertToLayers (sq : ℚ → ℚ) (c : Collection)
    (ids : List VectorID) : Collection :=
  let base := c.baseLayer ++ List.replicate ids.length BaseNode.init
  let newBase := ids.foldl
    (fun b id => insertIntoLayers sq c.config c.vectors b c.upperLayers id)
    base
  { c with baseLayer := newBase }

/-- `Collection::delete_from_layers` (src/src/func/collection.rs lines
640-665).  For each id it indexes the node at position `id` of the base
layer and of every upper layer, searches that node's own neighbor list for
the id, and overwrites the found position with `INVALID`.  The source
indexes with `[]`, which panics when the id is out of range of a layer;
the panic is modelled by `none`. -/
def Collection.deleteFromLayers (c : Collection) (ids : List VectorID) :
    Option Collection := do
  let baseL ← ids.foldlM
    (fun (b : List BaseNode) id => do
      let node ← b.get? id
      match node.nbrs.findIdx? (fun x => x == id) with
      | some i => pure (b.set id (node.set i INVALID))
      | none => pure b)
    c.baseLayer
  let uppersIdx := (List.range c.upperLayers.length).reverse
  let uppersL ← uppersIdx.foldlM
    (fun (us : List (List UpperNode)) li => do
      let layer := us.getD li []
      let layer ← ids.foldlM
        (fun (l : List UpperNode) id => do
          let node ← l.get? id
          match node.nbrs.findIdx? (fun x => x == id) with
          | some i => pure (l.set id (node.set i INVALID))
          | none => pure l)
        layer
      pure (us.set li layer))
    c.upperLayers
  pure { c with baseLayer := baseL, upperLayers := uppersL }

/-- The collection nearest-neighbor search result
(src/src/func/collection.rs lines 758-768). -/
structure SearchResult where
  id : VectorID
  distance : ℚ
  data : Metadata
deriving DecidableEq, Repr

/-- `Collection::truncate_irrelevant_result`
(src/src/func/collection.rs lines 668-693): with the default relevancy
`-1.0` every result is kept; for Euclidean distance results with
`distance <= relevancy` are kept; for the other kernels results with
`distance >= relevancy` are kept. -/
def Collection.truncateIrrelevantResult (c : Collection)
    (result : List SearchResult) : List SearchResult :=
  if c.relevancy = -1 then result
  else if c.config.distance = Distance.euclidean then
    result.filter (fun r => decide (r.distance ≤ c.relevancy))
  else
    result.filter (fun r => decide (r.distance ≥ c.relevancy))

/-- The raw (pre-filter, pre-truncation) result list of
`Collection::search` (src/src/func/collection.rs lines 291-318): run the
layered engine from the seed and join each candidate with its metadata.
The source indexes `self.data[..]`, which panics for a candidate id absent
from the map; the claims below never reach that case, so the lookup is
modelled with a default. -/
def Collection.searchRaw (sq : ℚ → ℚ) (c : Collection) (v : Vec32)
    (seed : VectorID) : List SearchResult :=
  let distQ := fun w =>
    Distance.calc sq c.config.distance v ((alookup c.vectors w).getD [])
  let st := descendLayers distQ c.baseLayer c.upperLayers
    c.config.efSearch seed
  st.results.map
    (fun cand =>
      ⟨cand.vectorId, cand.distance, (alookup c.data cand.vectorId).getD 0⟩)

/-- `Collection::search` (src/src/func/collection.rs lines 269-322): empty
collection short-circuits to `Ok([])` before any dimension check; then the
dimension is validated, the seed is the first valid slot (error
`unable_to_initiate_search` when none), and the engine results are
relevancy-filtered and truncated to `n`. -/
def Collection.search (sq : ℚ → ℚ) (c : Collection) (v : Vec32) (n : ℕ) :
    Except Err (List SearchResult) :=
  if c.vectors.isEmpty then Except.ok []
  else if v.length ≠ c.dimension then
    Except.error (Err.invalidDimension v.length c.dimension)
  else
    match c.slots.find? (fun id => VectorID.isValid id) with
    | none => Except.error Err.unableToInitiateSearch
    | some seed =>
      Except.ok ((c.truncateIrrelevantResult (c.searchRaw sq v seed)).take n)

/-- The raw result list of `Collection::true_search`
(src/src/func/collection.rs lines 332-347): one result per stored vector,
sorted ascending by the raw computed distance via a stable sort (the
source sorts with `partial_cmp(..).unwrap()`, NaN is not modelled over
`ℚ`). -/
def Collection.trueRaw (sq : ℚ → ℚ) (c : Collection) (v : Vec32) :
    List SearchResult :=
  sortByLe (fun a b => decide (a.distance ≤ b.distance))
    (c.vectors.map
      (fun p =>
        ⟨p.1, Distance.calc sq c.config.distance v p.2,
          (alookup c.data p.1).getD 0⟩))

/-- `Collection::true_search` (src/src/func/collection.rs lines 327-353):
validate the dimension, compute every distance, sort ascending, filter by
relevancy and truncate to `n`. -/
def Collection.trueSearch (sq : ℚ → ℚ) (c : Collection) (v : Vec32)
    (n : ℕ) : Except Err (List SearchResult) :=
  if v.length ≠ c.dimension then
    Except.error (Err.invalidDimension v.length c.dimension)
  else
    Except.ok ((c.truncateIrrelevantResult (c.trueRaw sq v)).take n)

/-- The success path of `Collection::insert`
(src/src/func/collection.rs lines 150-175): set the dimension on the first
record, assign id `slots.len()`, store vector and data, push the slot,
bump the count and index the new id. -/
def Collection.insertBody (sq : ℚ → ℚ) (c : Collection) (r : Rec) :
    Collection :=
  let c := if c.vectors.isEmpty ∧ c.dimension = 0 then
      { c with dimension := r.vector.length }
    else c
  let id := c.slots.length
  let c := { c with vectors := ainsert c.vectors id r.vector,
                    data := ainsert c.data id r.data,
                    slots := c.slots ++ [id],
                    count := c.count + 1 }
  c.insertToLayers sq [id]

/-- `Collection::insert` (src/src/func/collection.rs lines 142-176).  The
result pairs the post-call collection with the returned value, modelling
`&mut self`. -/
def Collection.insert (sq : ℚ → ℚ) (c : Collection) (r : Rec) :
    Collection × Except Err Unit :=
  if c.slots.length = U32MAX then (c, Except.error Err.collectionLimit)
  else if ¬ (c.vectors.isEmpty ∧ c.dimension = 0) ∧
      r.vector.length ≠ c.dimension then
    (c, Except.error (Err.invalidDimension r.vector.length c.dimension))
  else (c.insertBody sq r, Except.ok ())

/-- One iteration of the storage loop of `Collection::insert_many`
(src/src/func/collection.rs lines 575-578). -/
def storeRecord (c : Collection) (p : VectorID × Rec) : Collection :=
  { c with vectors := ainsert c.vectors p.1 p.2.vector,
           data := ainsert c.data p.1 p.2.data }

/-- The success path of `Collection::insert_many`
(src/src/func/collection.rs lines 567-587): assign the id range starting
at `slots.len()`, store the records, extend the slots, bump the count and
index the new ids; returns the post-call collection and the assigned
ids. -/
def Collection.insertManyBody (sq : ℚ → ℚ) (c : Collection)
    (rs : List Rec) : Collection × List VectorID :=
  let ids := List.range' c.slots.length rs.length
  let c := (ids.zip rs).foldl storeRecord c
  let c := { c with slots := c.slots ++ ids, count := c.count + rs.length }
  (c.insertToLayers sq ids, ids)

/-- `Collection::insert_many` (src/src/func/collection.rs lines 543-588).
The dimension is set from `records[0]` on an empty collection *before* the
consistency validation; `records[0]` on an empty batch panics (`none`). -/
def Collection.insertMany (sq : ℚ → ℚ) (c : Collection) (rs : List Rec) :
    Option (Collection × Except Err (List VectorID)) :=
  if c.slots.length + rs.length ≥ U32MAX then
    some (c, Except.error Err.collectionLimit)
  else
    match
      (if c.vectors.isEmpty ∧ c.dimension = 0 then
        (rs.head?).map (fun r0 => { c with dimension := r0.vector.length })
      else some c) with
    | none => none
    | some c1 =>
      if rs.any (fun r => r.vector.length ≠ c1.dimension) then
        some (c1, Except.error (Err.inconsistentDimension c1.dimension))
      else
        some ((c1.insertManyBody sq rs).1,
          Except.ok (c1.insertManyBody sq rs).2)

/-- `Collection::update` (src/src/func/collection.rs lines 243-264):
existence check, dimension validation, then delete from the layers,
replace vector and data and re-index the id. -/
def Collection.update (sq : ℚ → ℚ) (c : Collection) (id : VectorID)
    (r : Rec) : Option (Collection × Except Err Unit) :=
  if ¬ c.contains id then some (c, Except.error Err.recordNotFound)
  else if r.vector.length ≠ c.dimension then
    some (c, Except.error (Err.invalidDimension r.vector.length c.dimension))
  else
    match c.deleteFromLayers [id] with
    | none => none
    | some c1 =>
      let c2 := { c1 with vectors := ainsert c1.vectors id r.vector,
                          data := ainsert c1.data id r.data }
      some (c2.insertToLayers sq [id], Except.ok ())

/-- `Collection::delete` (src/src/func/collection.rs lines 189-208):
existence check, scrub the layers via `delete_from_layers`, drop the
vector and data, tombstone the slot and decrement the count.  The source
writes `self.slots[id] = INVALID`, which panics when `id` is out of range
of the slot table (`none`). -/
def Collection.delete (c : Collection) (id : VectorID) :
    Option (Collection × Except Err Unit) :=
  if ¬ c.contains id then some (c, Except.error Err.recordNotFound)
  else
    match c.deleteFromLayers [id] with
    | none => none
    | some c1 =>
      if id < c1.slots.length then
        some ({ c1 with vectors := aremove c1.vectors id,
                        data := aremove c1.data id,
                        slots := c1.slots.set id INVALID,
                        count := c1.count - 1 }, Except.ok ())
      else none

/-- The layer-sizing loop of `Collection::build`
(src/src/func/collection.rs lines 434-449): repeatedly take
`next = floor(len * ml)` and record `(len - next, len)` until `next`
drops below `M`, then record `(len, len)`.  `fuel` bounds the loop; any
fuel of at least `len + 1` reproduces every terminating execution of the
source (`ml < 1`; with `ml >= 1` the source itself never terminates). -/
def layerLoop (ml : ℚ) : ℕ → ℕ → List (ℕ × ℕ) → List (ℕ × ℕ)
  | 0, len, acc => acc ++ [(len, len)]
  | fuel + 1, len, acc =>
    let next := (Rat.floor ((len : ℚ) * ml)).toNat
    if next < M then acc ++ [(len, len)]
    else layerLoop ml fuel next (acc ++ [(len - next, len)])

/-- The success path of `Collection::build`
(src/src/func/collection.rs lines 432-538): compute the layer sizes and
ranges (each range starting at `max(start, 1)`, so id 0 is the global
entry point), run the construction insert for every id of every layer
from the top down, snapshot each finished non-base layer into
`upper_layers` (the first `end` base nodes truncated to `M` neighbors),
and assemble the collection with `count = records.len()`, slots `0..N`
and the record data keyed by listing order. -/
def Collection.buildBody (sq : ℚ → ℚ) (config : Config)
    (records : List Rec) (dimension : ℕ) : Collection :=
  let n := records.length
  let layers := (layerLoop config.ml (n + 1) n []).reverse
  let numLayers := layers.length
  let topLayer := numLayers - 1
  let vectors := (List.range n).zip (records.map (fun r => r.vector))
  let ranges := layers.enum.map
    (fun p => (numLayers - p.1 - 1, (max (p.2.2 - p.2.1) 1, p.2.2)))
  let base0 := List.replicate n BaseNode.init
  let step := fun (bu : List BaseNode × List (List UpperNode))
      (r : ℕ × ℕ × ℕ) =>
    let layerId := r.1
    let start := r.2.1
    let stop := r.2.2
    let base := (List.range' start (stop - start)).foldl
      (fun b i => insertIntoLayers sq config vectors b bu.2 i) bu.1
    let uppers := if layerId ≠ 0 then
        bu.2.set (layerId - 1) ((base.take stop).map UpperNode.fromZero)
      else bu.2
    (base, uppers)
  let built := ranges.foldl step (base0, List.replicate topLayer [])
  let data := (List.range n).zip (records.map (fun r => r.data))
  { config := config, relevancy := -1, data := data, vectors := vectors,
    slots := List.range n, baseLayer := built.1, upperLayers := built.2,
    count := n, dimension := dimension }

/-- `Collection::build` (src/src/func/collection.rs lines 405-539): an
empty record list yields `Collection::new`; batches of `u32::MAX` or more
records are rejected; the dimension is taken from the first record and
every record must agree on it. -/
def Collection.build (sq : ℚ → ℚ) (config : Config) (records : List Rec) :
    Except Err Collection :=
  if records.isEmpty then Except.ok (Collection.new config)
  else if records.length ≥ U32MAX then Except.error Err.collectionLimit
  else
    let dimension := (records.headD ⟨[], 0⟩).vector.length
    if records.any (fun r => r.vector.length ≠ dimension) then
      Except.error (Err.inconsistentDimension dimension)
    else Except.ok (Collection.buildBody sq config records dimension)

/-! ## General lemmas about the embedded operations -/

/-- Membership in an `insertSorted` result: the new element or an element
of the original list. -/
theorem mem_insertSorted {α : Type} (le : α → α → Bool) (x : α) :
    ∀ (l : List α) (z : α), z ∈ insertSorted le x l → z = x ∨ z ∈ l := by
  intro l
  induction l with
  | nil =>
    intro z hz
    simp only [insertSorted, List.mem_singleton] at hz
    exact Or.inl hz
  | cons y ys ih =>
    intro z hz
    simp only [insertSorted] at hz
    by_cases h : le x y = true
    · rw [if_pos h] at hz
      rcases List.mem_cons.mp hz with h1 | h1
      · exact Or.inl h1
      · exact Or.inr h1
    · rw [if_neg h] at hz
      rcases List.mem_cons.mp hz with h1 | h1
      · exact Or.inr (h1 ▸ List.mem_cons_self y ys)
      · rcases ih z h1 with h2 | h2
        · exact Or.inl h2
        · exact Or.inr (List.mem_cons_of_mem y h2)

/-- `insertSorted` preserves sortedness for a total, transitive boolean
comparator. -/
theorem pairwise_insertSorted {α : Type} (le : α → α → Bool)
    (total : ∀ a b, le a b = true ∨ le b a = true)
    (trans : ∀ a b c, le a b = true → le b c = true → le a c = true) :
    ∀ (l : List α) (x : α),
      l.Pairwise (fun a b => le a b = true) →
      (insertSorted le x l).Pairwise (fun a b => le a b = true) := by
  intro l
  induction l with
  | nil =>
    intro x _
    simp [insertSorted]
  | cons y ys ih =>
    intro x hp
    rcases List.pairwise_cons.mp hp with ⟨hy, hys⟩
    simp only [insertSorted]
    by_cases h : le x y = true
    · rw [if_pos h]
      refine List.pairwise_cons.mpr ⟨?_, hp⟩
      intro z hz
      rcases List.mem_cons.mp hz with h1 | h1
      · exact h1 ▸ h
      · exact trans x y z h (hy z h1)
    · rw [if_neg h]
      refine List.pairwise_cons.mpr ⟨?_, ih x hys⟩
      intro z hz
      rcases mem_insertSorted le x (ys) z hz with h1 | h1
      · rcases total x y with h2 | h2
        · exact absurd h2 h
        · exact h1 ▸ h2
      · exact hy z h1

/-- The stable insertion sort produces a list sorted under a total,
transitive boolean comparator. -/
theorem pairwise_sortByLe {α : Type} (le : α → α → Bool)
    (total : ∀ a b, le a b = true ∨ le b a = true)
    (trans : ∀ a b c, le a b = true → le b c = true → le a c = true)
    (l : List α) :
    (sortByLe le l).Pairwise (fun a b => le a b = true) := by
  induction l with
  | nil => simp [sortByLe]
  | cons x xs ih =>
    exact pairwise_insertSorted le total trans (sortByLe le xs) x ih

/-- `insert_to_layers` writes only the base layer: every other collection
field is unchanged. -/
theorem insertToLayers_fields (sq : ℚ → ℚ) (c : Collection)
    (ids : List VectorID) :
    (c.insertToLayers sq ids).slots = c.slots ∧
    (c.insertToLayers sq ids).count = c.count ∧
    (c.insertToLayers sq ids).vectors = c.vectors ∧
    (c.insertToLayers sq ids).data = c.data ∧
    (c.insertToLayers sq ids).dimension = c.dimension :=
  ⟨rfl, rfl, rfl, rfl, rfl⟩

/-- The record-storage loop of `insert_many` touches only the `vectors`
and `data` maps. -/
theorem foldl_storeRecord_fields :
    ∀ (l : List (VectorID × Rec)) (c : Collection),
      (l.foldl storeRecord c).slots = c.slots ∧
      (l.foldl storeRecord c).count = c.count ∧
      (l.foldl storeRecord c).dimension = c.dimension := by
  intro l
  induction l with
  | nil => intro c; exact ⟨rfl, rfl, rfl⟩
  | cons p ps ih =>
    intro c
    simpa [List.foldl_cons, storeRecord] using ih (storeRecord c p)

/-! ## Claim C9 -/

/-- The dot product is commutative over exact rationals (the source zips
the two slices, multiplies componentwise and sums left to right). -/
theorem dotProduct_comm :
    ∀ (a b : Vec32), Distance.dotProduct a b = Distance.dotProduct b a := by
  intro a
  induction a with
  | nil =>
    intro b
    cases b <;> simp [Distance.dotProduct]
  | cons x xs ih =>
    intro b
    cases b with
    | nil => simp [Distance.dotProduct]
    | cons y ys =>
      simp only [Distance.dotProduct, List.zip_cons_cons, List.map_cons,
        List.sum_cons] at *
      rw [mul_comm x y, ih ys]

/-- The summed squared differences of the Euclidean kernel are symmetric
in the two arguments. -/
theorem euclideanSum_comm :
    ∀ (a b : Vec32),
      ((a.zip b).map (fun p => (p.1 - p.2) ^ 2)).sum =
      ((b.zip a).map (fun p => (p.1 - p.2) ^ 2)).sum := by
  intro a
  induction a with
  | nil =>
    intro b
    cases b <;> simp
  | cons x xs ih =>
    intro b
    cases b with
    | nil => simp
    | cons y ys =>
      simp only [List.zip_cons_cons, List.map_cons, List.sum_cons]
      rw [ih ys, show (x - y) ^ 2 = (y - x) ^ 2 by ring]

/-- C9: for every kernel and every pair of vectors, the computed distance
is commutative, `calculate(a, b) = calculate(b, a)` — exactly, over the
rational model, for any square-root routine (when the lengths differ both
sides are the assertion panic). -/
theorem c9_distance_commutative (sq : ℚ → ℚ) (d : Distance) (a b : Vec32) :
    Distance.calculate sq d a b = Distance.calculate sq d b a := by
  unfold Distance.calculate
  by_cases h : a.length = b.length
  · rw [if_pos h, if_pos h.symm]
    cases d with
    | dot => simp [dotProduct_comm a b]
    | euclidean =>
      simp [Distance.euclideanDist, euclideanSum_comm a b]
    | cosine =>
      simp only [Distance.cosineSim]
      rw [dotProduct_comm a b, mul_comm]
  · rw [if_neg h, if_neg (fun hs => h hs.symm)]

/-! ## Claim C10 -/

/-- C10: `insert_many` with an empty batch on a fresh (empty, dimension 0)
collection panics — the source indexes `records[0]` to establish the
dimension before checking that the batch is nonempty.  The panic is the
`none` of the model. -/
theorem c10_insert_many_empty_batch_panics (sq : ℚ → ℚ) (cfg : Config) :
    Collection.insertMany sq (Collection.new cfg) [] = none := rfl

/-! ## Claim C7 -/

/-- C7: `search` on a collection with no vectors returns `Ok([])` for
every query (of any length, matching the dimension or not) and every `n`:
the empty-collection short-circuit precedes the dimension check. -/
theorem c7_search_empty_collection (sq : ℚ → ℚ) (c : Collection)
    (v : Vec32) (n : ℕ) (h : c.vectors = []) :
    c.search sq v n = Except.ok [] := by
  unfold Collection.search
  rw [h]
  rfl

/-- Witness for C7: the fresh default collection with a 128-dimensional
zero query and `n = 5` (while the collection dimension is 0). -/
theorem c7_search_empty_collection_witness :
    (Collection.new Config.init).search (fun x => x)
      (List.replicate 128 0) 5 = Except.ok [] :=
  c7_search_empty_collection (fun x => x) (Collection.new Config.init)
    (List.replicate 128 0) 5 rfl

/-! ## Claim C2 -/

/-- Counterexample to C2 as stated: on an empty collection (dimension 0),
`insert_many` of two records of lengths 1 and 2 fails with the
inconsistent-dimension error, yet the collection's `dimension` is now 1
(the source sets the dimension from `records[0]` before validating), so
the observable state is not unchanged on error. -/
theorem c2_insert_many_error_mutates_dimension :
    (Collection.new Config.init).dimension = 0 ∧
    (Collection.insertMany (fun x => x) (Collection.new Config.init)
      [⟨[1], 0⟩, ⟨[2, 3], 0⟩]).map
      (fun p => (p.1.dimension, p.2.isOk)) = some (1, false) :=
  ⟨rfl, rfl⟩

/-- C2 (amended): on error, `insert`, `update` and `delete` leave the
collection unchanged; a failing `insert_many` leaves every observable
field unchanged except that, when the collection was empty with dimension
0, the dimension has been set to the first record's length before the
failing validation. -/
theorem c2_error_atomicity_amended (sq : ℚ → ℚ) :
    (∀ c r c2 e, Collection.insert sq c r = (c2, Except.error e) →
      c2 = c) ∧
    (∀ c id c2 e, Collection.delete c id = some (c2, Except.error e) →
      c2 = c) ∧
    (∀ c id r c2 e,
      Collection.update sq c id r = some (c2, Except.error e) →
      c2 = c) ∧
    (∀ c rs c2 e,
      Collection.insertMany sq c rs = some (c2, Except.error e) →
      c2.slots = c.slots ∧ c2.count = c.count ∧
      c2.vectors = c.vectors ∧ c2.data = c.data ∧
      c2.baseLayer = c.baseLayer ∧ c2.upperLayers = c.upperLayers ∧
      c2.config = c.config ∧ c2.relevancy = c.relevancy ∧
      (c2.dimension = c.dimension ∨
        (c.vectors = [] ∧ c.dimension = 0 ∧
          c2.dimension = (rs.headD ⟨[], 0⟩).vector.length))) := by
  refine ⟨?_, ?_, ?_, ?_⟩
  · intro c r c2 e h
    unfold Collection.insert at h
    by_cases h1 : c.slots.length = U32MAX
    · rw [if_pos h1] at h
      injection h with ha hb
      exact ha.symm
    · rw [if_neg h1] at h
      by_cases h2 : ¬ (c.vectors.isEmpty = true ∧ c.dimension = 0) ∧
          r.vector.length ≠ c.dimension
      · rw [if_pos h2] at h
        injection h with ha hb
        exact ha.symm
      · rw [if_neg h2] at h
        injection h with ha hb
        cases hb
  · intro c id c2 e h
    unfold Collection.delete at h
    by_cases h1 : ¬ c.contains id = true
    · rw [if_pos h1] at h
      injection h with h3
      injection h3 with ha hb
      exact ha.symm
    · rw [if_neg h1] at h
      cases hd : c.deleteFromLayers [id] with
      | none => rw [hd] at h; cases h
      | some c1 =>
        rw [hd] at h
        dsimp only at h
        by_cases h2 : id < c1.slots.length
        · rw [if_pos h2] at h
          injection h with h3
          injection h3 with ha hb
          cases hb
        · rw [if_neg h2] at h
          cases h
  · intro c id r c2 e h
    unfold Collection.update at h
    by_cases h1 : ¬ c.contains id = true
    · rw [if_pos h1] at h
      injection h with h3
      injection h3 with ha hb
      exact ha.symm
    · rw [if_neg h1] at h
      by_cases h2 : r.vector.length ≠ c.dimension
      · rw [if_pos h2] at h
        injection h with h3
        injection h3 with ha hb
        exact ha.symm
      · rw [if_neg h2] at h
        cases hd : c.deleteFromLayers [id] with
        | none => rw [hd] at h; cases h
        | some c1 =>
          rw [hd] at h
          dsimp only at h
          injection h with h3
          injection h3 with ha hb
          cases hb
  · intro c rs c2 e h
    unfold Collection.insertMany at h
    by_cases h1 : c.slots.length + rs.length ≥ U32MAX
    · rw [if_pos h1] at h
      injection h with h3
      injection h3 with ha hb
      subst ha
      exact ⟨rfl, rfl, rfl, rfl, rfl, rfl, rfl, rfl, Or.inl rfl⟩
    · rw [if_neg h1] at h
      by_cases hE : c.vectors.isEmpty = true ∧ c.dimension = 0
      · rw [if_pos hE] at h
        cases hrs : rs with
        | nil => rw [hrs] at h; cases h
        | cons r0 tl =>
          rw [hrs] at h
          simp only [List.head?_cons, Option.map_some'] at h
          by_cases h2 : (r0 :: tl).any
              (fun r => r.vector.length ≠
                ({ c with dimension := r0.vector.length } :
                  Collection).dimension) = true
          · rw [if_pos h2] at h
            injection h with h3
            injection h3 with ha hb
            subst ha
            refine ⟨rfl, rfl, rfl, rfl, rfl, rfl, rfl, rfl, Or.inr ?_⟩
            exact ⟨List.isEmpty_iff.mp hE.1, hE.2, rfl⟩
          · rw [if_neg h2] at h
            injection h with h3
            injection h3 with ha hb
            cases hb
      · rw [if_neg hE] at h
        dsimp only at h
        by_cases h2 : rs.any
            (fun r => r.vector.length ≠ c.dimension) = true
        · rw [if_pos h2] at h
          injection h with h3
          injection h3 with ha hb
          subst ha
          exact ⟨rfl, rfl, rfl, rfl, rfl, rfl, rfl, rfl, Or.inl rfl⟩
        · rw [if_neg h2] at h
          injection h with h3
          injection h3 with ha hb
          cases hb

/-- The empty collection with its dimension pre-set to 1, used to witness
the error atomicity of `insert`. -/
def dim1C : Collection := { Collection.new Config.init with dimension := 1 }

/-- Witness for C2 (amended): a failing `insert` (wrong-length vector
against a collection locked to dimension 1) leaves the collection
unchanged, and the failing `insert_many` of the counterexample leaves the
slot table unchanged. -/
theorem c2_error_atomicity_amended_witness :
    (Collection.insert (fun x => x) dim1C ⟨[1, 2], 0⟩).1 = dim1C ∧
    ({ Collection.new Config.init with dimension := 1 } :
      Collection).slots = (Collection.new Config.init).slots := by
  have hmain := c2_error_atomicity_amended (fun x => x)
  refine ⟨hmain.1 dim1C ⟨[1, 2], 0⟩ _ (Err.invalidDimension 2 1) rfl, ?_⟩
  exact (hmain.2.2.2 (Collection.new Config.init) [⟨[1], 0⟩, ⟨[2, 3], 0⟩]
    { Collection.new Config.init with dimension := 1 }
    (Err.inconsistentDimension 1) rfl).1

/-! ## Claim C3 -/

/-- A collection whose slot table holds `u32::MAX - 1` entries, all
tombstoned (invariants I1 and I2 hold: no live slot, no vector, count 0;
I5 holds: one base node per slot). -/
def atCapMinusOne : Collection :=
  { config := Config.init, relevancy := -1, data := [], vectors := [],
    slots := List.replicate 4294967294 INVALID,
    baseLayer := List.replicate 4294967294 BaseNode.init,
    upperLayers := [], count := 0, dimension := 0 }

/-- A collection whose slot table holds `u32::MAX` entries, all
tombstoned. -/
def atCap : Collection :=
  { atCapMinusOne with slots := List.replicate 4294967295 INVALID,
                       baseLayer := List.replicate 4294967295 BaseNode.init }

/-- Counterexample to C3 as stated: on a collection with
`slots.len() = u32::MAX - 1`, `insert` does **not** return the
`collection_limit` error — it succeeds, and the slot table reaches
`u32::MAX` entries (the source rejects only when `slots.len()` already
equals `u32::MAX`). -/
theorem c3_insert_not_rejected_at_cap_minus_one :
    atCapMinusOne.slots.length = U32MAX - 1 ∧
    (atCapMinusOne.insert (fun x => x) ⟨[1], 0⟩).2 = Except.ok () ∧
    ((atCapMinusOne.insert (fun x => x) ⟨[1], 0⟩).1).slots.length =
      U32MAX := by
  have hlen : atCapMinusOne.slots.length = 4294967294 := by
    rw [show atCapMinusOne.slots = List.replicate 4294967294 INVALID from
      rfl]
    rw [List.length_replicate]
  have hg1 : ¬ atCapMinusOne.slots.length = U32MAX := by
    rw [hlen]; decide
  have hg2 : ¬ (¬ (atCapMinusOne.vectors.isEmpty = true ∧
      atCapMinusOne.dimension = 0) ∧
      (Rec.mk [1] 0).vector.length ≠ atCapMinusOne.dimension) :=
    fun hc => hc.1 ⟨rfl, rfl⟩
  have hguards : atCapMinusOne.insert (fun x => x) ⟨[1], 0⟩ =
      (atCapMinusOne.insertBody (fun x => x) ⟨[1], 0⟩, Except.ok ()) := by
    unfold Collection.insert
    rw [if_neg hg1, if_neg hg2]
  have hslots : (atCapMinusOne.insertBody (fun x => x) ⟨[1], 0⟩).slots =
      atCapMinusOne.slots ++ [atCapMinusOne.slots.length] := by
    unfold Collection.insertBody
    rw [if_pos ⟨rfl, rfl⟩]
    exact (insertToLayers_fields _ _ _).1
  refine ⟨by rw [hlen]; rfl, by rw [hguards], ?_⟩
  rw [hguards]
  show (atCapMinusOne.insertBody (fun x => x) ⟨[1], 0⟩).slots.length = U32MAX
  rw [hslots, List.length_append, hlen]
  rfl

/-- C3 (amended): `insert` rejects with `collection_limit` exactly when
`slots.len()` already equals `u32::MAX` (so at `u32::MAX - 1` it is not
rejected and the table may reach `u32::MAX`), while `insert_many` rejects
whenever `slots.len() + N >= u32::MAX` — which covers the claimed
boundary: at `slots.len() = u32::MAX - 1` a one-record batch is
rejected. -/
theorem c3_capacity_amended (sq : ℚ → ℚ) :
    (∀ (c : Collection) (r : Rec), c.slots.length = U32MAX →
      c.insert sq r = (c, Except.error Err.collectionLimit)) ∧
    (∀ (c : Collection) (rs : List Rec),
      c.slots.length + rs.length ≥ U32MAX →
      c.insertMany sq rs = some (c, Except.error Err.collectionLimit)) ∧
    (∀ (c : Collection) (r : Rec), c.slots.length = U32MAX - 1 →
      (c.insert sq r).2 ≠ Except.error Err.collectionLimit) := by
  refine ⟨?_, ?_, ?_⟩
  · intro c r h
    unfold Collection.insert
    rw [if_pos h]
  · intro c rs h
    unfold Collection.insertMany
    rw [if_pos h]
  · intro c r h
    unfold Collection.insert
    rw [if_neg (by rw [h]; decide)]
    by_cases h2 : ¬ (c.vectors.isEmpty = true ∧ c.dimension = 0) ∧
        r.vector.length ≠ c.dimension
    · rw [if_pos h2]
      intro hcon
      injection hcon with hx
      exact Err.noConfusion hx
    · rw [if_neg h2]
      intro hcon
      exact Except.noConfusion hcon

/-- Witness for C3 (amended): at `u32::MAX` slots, `insert` is rejected;
at `u32::MAX - 1` slots, a one-record `insert_many` is rejected while the
same single-record `insert` is not. -/
theorem c3_capacity_amended_witness :
    atCap.insert (fun x => x) ⟨[1], 0⟩ =
      (atCap, Except.error Err.collectionLimit) ∧
    atCapMinusOne.insertMany (fun x => x) [⟨[1], 0⟩] =
      some (atCapMinusOne, Except.error Err.collectionLimit) ∧
    (atCapMinusOne.insert (fun x => x) ⟨[1], 0⟩).2 ≠
      Except.error Err.collectionLimit := by
  have hmain := c3_capacity_amended (fun x => x)
  refine ⟨hmain.1 atCap ⟨[1], 0⟩ ?_, hmain.2.1 atCapMinusOne [⟨[1], 0⟩] ?_,
    hmain.2.2 atCapMinusOne ⟨[1], 0⟩ ?_⟩
  · rw [show atCap.slots = List.replicate 4294967295 INVALID from rfl]
    rw [List.length_replicate]
    rfl
  · rw [show atCapMinusOne.slots = List.replicate 4294967294 INVALID from
      rfl]
    rw [List.length_replicate]
    decide
  · rw [show atCapMinusOne.slots = List.replicate 4294967294 INVALID from
      rfl]
    rw [List.length_replicate]
    decide

/-! ## Success-path lemmas shared by the insertion claims -/

/-- The dimension the collection will validate against inside
`insert_many`: the first record's length when the collection is empty
with dimension 0, the stored dimension otherwise (mirrors
src/src/func/collection.rs lines 552-555). -/
def dimAfter (c : Collection) (rs : List Rec) : ℕ :=
  if c.vectors.isEmpty ∧ c.dimension = 0 then
    (rs.headD ⟨[], 0⟩).vector.length
  else c.dimension

/-- Field bookkeeping of the `insert_many` success path: the assigned ids
are `slots.len() .. slots.len() + N`, the slot table is extended by them,
the count grows by `N`, and the dimension is untouched. -/
theorem insertManyBody_fields (sq : ℚ → ℚ) (c : Collection)
    (rs : List Rec) :
    (c.insertManyBody sq rs).2 = List.range' c.slots.length rs.length ∧
    (c.insertManyBody sq rs).1.slots =
      c.slots ++ List.range' c.slots.length rs.length ∧
    (c.insertManyBody sq rs).1.count = c.count + rs.length ∧
    (c.insertManyBody sq rs).1.dimension = c.dimension := by
  unfold Collection.insertManyBody
  refine ⟨rfl, ?_, ?_, ?_⟩
  · dsimp only
    rw [(insertToLayers_fields _ _ _).1]
    dsimp only
    rw [(foldl_storeRecord_fields _ _).1]
  · dsimp only
    rw [(insertToLayers_fields _ _ _).2.1]
    dsimp only
    rw [(foldl_storeRecord_fields _ _).2.1]
  · dsimp only
    rw [(insertToLayers_fields _ _ _).2.2.2.2]
    dsimp only
    rw [(foldl_storeRecord_fields _ _).2.2]

/-- Successful `insert_many`: under the capacity bound, a nonempty batch
whose records all match the working dimension is accepted; the assigned
ids are `slots.len() .. slots.len() + N` in listing order, they are
appended to the slot table, and the count grows by `N`. -/
theorem insertMany_ok (sq : ℚ → ℚ) (c : Collection) (rs : List Rec)
    (hlim : c.slots.length + rs.length < U32MAX)
    (hrs : rs ≠ [])
    (hdim : ∀ r ∈ rs, r.vector.length = dimAfter c rs) :
    ∃ c2 : Collection,
      c.insertMany sq rs =
        some (c2, Except.ok (List.range' c.slots.length rs.length)) ∧
      c2.slots = c.slots ++ List.range' c.slots.length rs.length ∧
      c2.count = c.count + rs.length ∧
      c2.dimension = dimAfter c rs := by
  unfold Collection.insertMany
  rw [if_neg (not_le.mpr hlim)]
  by_cases hE : c.vectors.isEmpty = true ∧ c.dimension = 0
  · rw [if_pos hE]
    cases rs with
    | nil => exact absurd rfl hrs
    | cons r0 tl =>
      simp only [List.head?_cons, Option.map_some']
      have hdA : dimAfter c (r0 :: tl) = r0.vector.length := by
        unfold dimAfter
        rw [if_pos hE]
        rfl
      have hany : ¬ ((r0 :: tl).any
          (fun r => decide (r.vector.length ≠
            ({ c with dimension := r0.vector.length } :
              Collection).dimension)) = true) := by
        intro hc
        rcases List.any_eq_true.mp hc with ⟨r, hr, hp⟩
        exact (of_decide_eq_true hp) ((hdim r hr).trans hdA)
      rw [if_neg hany]
      have hb := insertManyBody_fields sq
        { c with dimension := r0.vector.length } (r0 :: tl)
      refine ⟨(Collection.insertManyBody sq
        { c with dimension := r0.vector.length } (r0 :: tl)).1,
        ?_, ?_, ?_, ?_⟩
      · rw [hb.1]
      · rw [hb.2.1]
      · rw [hb.2.2.1]
      · rw [hb.2.2.2, hdA]
  · rw [if_neg hE]
    dsimp only
    have hdA : dimAfter c rs = c.dimension := by
      unfold dimAfter
      rw [if_neg hE]
    have hany : ¬ (rs.any
        (fun r => decide (r.vector.length ≠ c.dimension)) = true) := by
      intro hc
      rcases List.any_eq_true.mp hc with ⟨r, hr, hp⟩
      exact (of_decide_eq_true hp) ((hdim r hr).trans hdA)
    rw [if_neg hany]
    have hb := insertManyBody_fields sq c rs
    refine ⟨(Collection.insertManyBody sq c rs).1, ?_, ?_, ?_, ?_⟩
    · rw [hb.1]
    · rw [hb.2.1]
    · rw [hb.2.2.1]
    · rw [hb.2.2.2, hdA]

/-- Successful single `insert`: the new record's slot is appended and the
count incremented (graph indexing touches neither field). -/
theorem insertBody_fields (sq : ℚ → ℚ) (c : Collection) (r : Rec) :
    (c.insertBody sq r).slots = c.slots ++ [c.slots.length] ∧
    (c.insertBody sq r).count = c.count + 1 := by
  unfold Collection.insertBody
  by_cases hE : c.vectors.isEmpty = true ∧ c.dimension = 0
  · rw [if_pos hE]
    exact ⟨(insertToLayers_fields _ _ _).1,
      (insertToLayers_fields _ _ _).2.1⟩
  · rw [if_neg hE]
    exact ⟨(insertToLayers_fields _ _ _).1,
      (insertToLayers_fields _ _ _).2.1⟩

/-! ## Claim C4 -/

/-- Counterexample to C4 as stated: `build` on two records with
bit-identical vectors does **not** coalesce them — the resulting
collection has `count = 2` (not the number of distinct vectors, 1), both
records keep their own id and their own metadata (5 and 6). -/
theorem c4_build_admits_duplicate_vectors :
    (Collection.build (fun x => x) Config.init
      [⟨[1], 5⟩, ⟨[1], 6⟩]).toOption.map
      (fun c => (c.count, c.data, c.slots)) =
      some (2, [(0, 5), (1, 6)], [0, 1]) := rfl

/-- C4 (amended): `build` performs no deduplication — every record of a
dimension-consistent batch, bit-identical duplicates included, is admitted
under its own id with its metadata preserved, and `count` equals the
number of records; `insert_many` likewise assigns one id per record
regardless of duplicate vectors. -/
theorem c4_no_dedup_amended (sq : ℚ → ℚ) (config : Config)
    (records : List Rec) (h1 : records ≠ [])
    (h2 : records.length < U32MAX)
    (h3 : ∀ r ∈ records,
      r.vector.length = (records.headD ⟨[], 0⟩).vector.length) :
    (∃ c, Collection.build sq config records = Except.ok c ∧
      c.count = records.length ∧
      c.data =
        (List.range records.length).zip (records.map (fun r => r.data)) ∧
      c.vectors =
        (List.range records.length).zip
          (records.map (fun r => r.vector))) ∧
    (∀ (c : Collection) (rs : List Rec) c2 ids,
      Collection.insertMany sq c rs = some (c2, Except.ok ids) →
      ids.length = rs.length) := by
  constructor
  · unfold Collection.build
    rw [if_neg (by rw [List.isEmpty_iff]; exact h1), if_neg (not_le.mpr h2)]
    have hany : ¬ (records.any
        (fun r => decide (r.vector.length ≠
          (records.headD ⟨[], 0⟩).vector.length)) = true) := by
      intro hc
      rcases List.any_eq_true.mp hc with ⟨r, hr, hp⟩
      exact (of_decide_eq_true hp) (h3 r hr)
    rw [if_neg hany]
    exact ⟨_, rfl, rfl, rfl, rfl⟩
  · intro c rs c2 ids h
    unfold Collection.insertMany at h
    by_cases hlim : c.slots.length + rs.length ≥ U32MAX
    · rw [if_pos hlim] at h
      injection h with h4
      injection h4 with ha hb
      cases hb
    · rw [if_neg hlim] at h
      by_cases hE : c.vectors.isEmpty = true ∧ c.dimension = 0
      · rw [if_pos hE] at h
        cases rs with
        | nil => rw [show (([] : List Rec).head?).map (fun r0 =>
            ({ c with dimension := r0.vector.length } : Collection)) =
            none from rfl] at h; cases h
        | cons r0 tl =>
          simp only [List.head?_cons, Option.map_some'] at h
          by_cases h5 : ((r0 :: tl).any (fun r =>
              decide (r.vector.length ≠
                ({ c with dimension := r0.vector.length } :
                  Collection).dimension))) = true
          · rw [if_pos h5] at h
            injection h with h4
            injection h4 with ha hb
            cases hb
          · rw [if_neg h5] at h
            injection h with h4
            injection h4 with ha hb
            injection hb with hc
            rw [← hc,
              (insertManyBody_fields sq _ (r0 :: tl)).1,
              List.length_range']
      · rw [if_neg hE] at h
        dsimp only at h
        by_cases h5 : (rs.any (fun r =>
            decide (r.vector.length ≠ c.dimension))) = true
        · rw [if_pos h5] at h
          injection h with h4
          injection h4 with ha hb
          cases hb
        · rw [if_neg h5] at h
          injection h with h4
          injection h4 with ha hb
          injection hb with hc
          rw [← hc, (insertManyBody_fields sq c rs).1,
            List.length_range']

/-- Witness for C4 (amended): the duplicate-vector batch of the
counterexample satisfies the hypotheses, so `build` admits both records
with both metadata values, and a successful one-record `insert_many` on a
fresh collection returns exactly one id. -/
theorem c4_no_dedup_amended_witness :
    (∃ c, Collection.build (fun x => x) Config.init
        [⟨[1], 5⟩, ⟨[1], 6⟩] = Except.ok c ∧
      c.count = [(⟨[1], 5⟩ : Rec), ⟨[1], 6⟩].length ∧
      c.data = (List.range 2).zip [5, 6] ∧
      c.vectors = (List.range 2).zip [[1], [1]]) ∧
    ([0] : List VectorID).length = 1 := by
  have hmain := c4_no_dedup_amended (fun x => x) Config.init
    [⟨[1], 5⟩, ⟨[1], 6⟩] (by decide) (by decide) (by decide)
  exact ⟨hmain.1, hmain.2 (Collection.new Config.init) [⟨[1], 5⟩]
    ((Collection.insertManyBody (fun x => x)
      { Collection.new Config.init with dimension := 1 } [⟨[1], 5⟩]).1)
    [0] rfl⟩

/-! ## Claim C8 -/

/-- C8: a successful `insert_many` of `N` records on a collection with
`s = slots.len()` returns the ids `s, s+1, ..., s+N-1` in listing order,
appends exactly those ids to the slot table and increases the count by
`N`; a successful single `insert` appends the id `s` and increments the
count. -/
theorem c8_id_assignment (sq : ℚ → ℚ) :
    (∀ (c : Collection) (rs : List Rec),
      c.slots.length + rs.length < U32MAX → rs ≠ [] →
      (∀ r ∈ rs, r.vector.length = dimAfter c rs) →
      ∃ c2, c.insertMany sq rs =
          some (c2, Except.ok (List.range' c.slots.length rs.length)) ∧
        c2.slots = c.slots ++ List.range' c.slots.length rs.length ∧
        c2.count = c.count + rs.length) ∧
    (∀ (c : Collection) (r : Rec),
      c.slots.length ≠ U32MAX →
      (¬ (c.vectors.isEmpty = true ∧ c.dimension = 0) →
        r.vector.length = c.dimension) →
      ∃ c2, c.insert sq r = (c2, Except.ok ()) ∧
        c2.slots = c.slots ++ [c.slots.length] ∧
        c2.count = c.count + 1) := by
  constructor
  · intro c rs h1 h2 h3
    rcases insertMany_ok sq c rs h1 h2 h3 with ⟨c2, ha, hb, hc, _⟩
    exact ⟨c2, ha, hb, hc⟩
  · intro c r h1 h2
    unfold Collection.insert
    rw [if_neg h1]
    have hg : ¬ (¬ (c.vectors.isEmpty = true ∧ c.dimension = 0) ∧
        r.vector.length ≠ c.dimension) := by
      intro hc
      exact hc.2 (h2 hc.1)
    rw [if_neg hg]
    exact ⟨_, rfl, (insertBody_fields sq c r).1,
      (insertBody_fields sq c r).2⟩

/-- Witness for C8: a one-record batch into a fresh collection is
assigned id 0 (slot table `[0]`, count 1), and a single insert into a
collection of dimension 1 with empty slots is assigned id 0. -/
theorem c8_id_assignment_witness :
    (∃ c2, Collection.insertMany (fun x => x) (Collection.new Config.init)
        [⟨[2, 3], 9⟩] = some (c2, Except.ok (List.range' 0 1)) ∧
      c2.slots = [] ++ List.range' 0 1 ∧ c2.count = 0 + 1) ∧
    (∃ c2, Collection.insert (fun x => x) dim1C ⟨[4], 1⟩ =
        (c2, Except.ok ()) ∧
      c2.slots = [] ++ [([] : List VectorID).length] ∧
      c2.count = 0 + 1) := by
  have hmain := c8_id_assignment (fun x => x)
  exact ⟨hmain.1 (Collection.new Config.init) [⟨[2, 3], 9⟩] (by decide)
      (by decide) (by decide),
    hmain.2 dim1C ⟨[4], 1⟩ (by decide) (fun h => rfl)⟩

/-! ## Claim C6 -/

/-- C6: the relevancy filter retains everything at the disabled threshold
`-1.0`; otherwise it retains exactly the results with
`distance <= relevancy` under the Euclidean kernel and exactly those with
`distance >= relevancy` under cosine and dot; and both `search` and
`true_search` apply the filter to the raw result list before truncating
to `n`. -/
theorem c6_relevancy_filter (sq : ℚ → ℚ) (c : Collection)
    (l : List SearchResult) (v : Vec32) (n : ℕ) (seed : VectorID) :
    (∀ r : SearchResult, r ∈ c.truncateIrrelevantResult l ↔
      r ∈ l ∧ (c.relevancy = -1 ∨
        (c.config.distance = Distance.euclidean ∧
          r.distance ≤ c.relevancy) ∨
        (c.config.distance ≠ Distance.euclidean ∧
          r.distance ≥ c.relevancy))) ∧
    (¬ c.vectors.isEmpty = true → v.length = c.dimension →
      c.slots.find? (fun id => VectorID.isValid id) = some seed →
      c.search sq v n =
        Except.ok ((c.truncateIrrelevantResult
          (c.searchRaw sq v seed)).take n)) ∧
    (v.length = c.dimension →
      c.trueSearch sq v n =
        Except.ok ((c.truncateIrrelevantResult (c.trueRaw sq v)).take n)) := by
  refine ⟨?_, ?_, ?_⟩
  · intro r
    unfold Collection.truncateIrrelevantResult
    by_cases hrel : c.relevancy = -1
    · rw [if_pos hrel]
      simp [hrel]
    · rw [if_neg hrel]
      by_cases hk : c.config.distance = Distance.euclidean
      · rw [if_pos hk]
        simp [List.mem_filter, hrel, hk]
      · rw [if_neg hk]
        simp [List.mem_filter, hrel, hk]
  · intro hne hv hseed
    unfold Collection.search
    rw [if_neg (by simpa using hne), if_neg (by rw [hv]; exact fun hc => hc rfl),
      hseed]
  · intro hv
    unfold Collection.trueSearch
    rw [if_neg (by rw [hv]; exact fun hc => hc rfl)]

/-- A one-record collection used to witness the relevancy filter claim. -/
def relC : Collection :=
  { config := Config.init, relevancy := -1, data := [(0, 0)],
    vectors := [(0, [0])], slots := [0],
    baseLayer := [BaseNode.init], upperLayers := [], count := 1,
    dimension := 1 }

/-- Witness for C6: on a concrete one-record collection, `search` and
`true_search` factor through the relevancy filter applied before
truncation, and the filter characterization holds for a concrete result
list. -/
theorem c6_relevancy_filter_witness :
    (((⟨0, 0, 0⟩ : SearchResult) ∈
        relC.truncateIrrelevantResult [⟨0, 0, 0⟩]) ↔
      ((⟨0, 0, 0⟩ : SearchResult) ∈ [(⟨0, 0, 0⟩ : SearchResult)] ∧
        (relC.relevancy = -1 ∨
          (relC.config.distance = Distance.euclidean ∧
            (0 : ℚ) ≤ relC.relevancy) ∨
          (relC.config.distance ≠ Distance.euclidean ∧
            (0 : ℚ) ≥ relC.relevancy)))) ∧
    relC.search (fun x => x) [0] 3 =
      Except.ok ((relC.truncateIrrelevantResult
        (relC.searchRaw (fun x => x) [0] 0)).take 3) ∧
    relC.trueSearch (fun x => x) [0] 3 =
      Except.ok ((relC.truncateIrrelevantResult
        (relC.trueRaw (fun x => x) [0])).take 3) := by
  have hmain := c6_relevancy_filter (fun x => x) relC
    [⟨0, 0, 0⟩] [0] 3 0
  exact ⟨hmain.1 ⟨0, 0, 0⟩, hmain.2.1 (by decide) rfl (by decide),
    hmain.2.2 rfl⟩

/-! ## Claim C1 -/

/-- The collection obtained by inserting the records `([0], 10)` and
`([1], 11)` into a fresh default collection: two live ids 0 and 1, each
listed as the other's base-layer neighbor. -/
def twoC : Collection :=
  (((Collection.new Config.init).insert (fun x => x) ⟨[0], 10⟩).1.insert
    (fun x => x) ⟨[1], 11⟩).1

/-- C1 is violated by the code: in `twoC`, node 0 lists id 1 as its first
base-layer neighbor; `delete 1` returns `Ok`, tombstones slot 1 and drops
the record, yet node 0 still lists the valid neighbor entry 1 —
`delete_from_layers` only searches the deleted id's **own** node (a no-op
under the self-free invariant I3) instead of scrubbing every node's
neighbor list. -/
theorem c1_delete_leaves_ghost_neighbor :
    twoC.baseLayer.map (fun nd => nd.nbrs.take 1) = [[1], [0]] ∧
    (twoC.delete 1).map
      (fun p => (p.2.isOk, p.1.baseLayer.map (fun nd => nd.nbrs.take 1),
        p.1.slots, p.1.count, p.1.contains 1)) =
      some (true, [[1], [0]], [0, INVALID], 1, false) := by
  constructor
  · decide
  · decide

/-! ## Claim C5 -/

/-- `candLE` implies comparison of the stored distances. -/
theorem candLE_dist {a b : Candidate} (h : candLE a b = true) :
    a.distance ≤ b.distance := by
  unfold candLE at h
  by_cases he : a.distance = b.distance
  · exact le_of_eq he
  · rw [if_neg he] at h
    exact le_of_lt (of_decide_eq_true h)

/-- The engine comparator is total. -/
theorem candLE_total (a b : Candidate) :
    candLE a b = true ∨ candLE b a = true := by
  unfold candLE
  by_cases he : a.distance = b.distance
  · rw [if_pos he, if_pos he.symm]
    rcases Nat.le_total a.vectorId b.vectorId with h | h
    · exact Or.inl (decide_eq_true h)
    · exact Or.inr (decide_eq_true h)
  · rw [if_neg he, if_neg (fun hc => he hc.symm)]
    rcases lt_or_gt_of_ne he with h | h
    · exact Or.inl (decide_eq_true h)
    · exact Or.inr (decide_eq_true h)

/-- The engine comparator is transitive. -/
theorem candLE_trans (a b c : Candidate) (h1 : candLE a b = true)
    (h2 : candLE b c = true) : candLE a c = true := by
  unfold candLE at h1 h2 ⊢
  by_cases hab : a.distance = b.distance
  · rw [if_pos hab] at h1
    by_cases hbc : b.distance = c.distance
    · rw [if_pos hbc] at h2
      rw [if_pos (hab.trans hbc)]
      exact decide_eq_true
        (Nat.le_trans (of_decide_eq_true h1) (of_decide_eq_true h2))
    · rw [if_neg hbc] at h2
      rw [if_neg (fun hc => hbc (hab.symm.trans hc)), hab]
      exact h2
  · rw [if_neg hab] at h1
    have h1L := of_decide_eq_true h1
    by_cases hbc : b.distance = c.distance
    · rw [if_neg (fun hc => hab (hc.trans hbc.symm))]
      exact decide_eq_true (hbc ▸ h1L)
    · rw [if_neg hbc] at h2
      have h2L := of_decide_eq_true h2
      rw [if_neg (fun hc => absurd
        (lt_of_lt_of_le (lt_trans h1L h2L) (le_of_eq hc.symm))
        (lt_irrefl a.distance))]
      exact decide_eq_true (lt_trans h1L h2L)

/-- The list a caller observes from a search call: the `Ok` payload, or
nothing when the call failed. -/
def resultList (e : Except Err (List SearchResult)) : List SearchResult :=
  e.toOption.getD []

/-- The relevancy filter preserves sortedness by distance. -/
theorem truncate_pairwise (c : Collection) (l : List SearchResult)
    (hl : l.Pairwise (fun a b => a.distance ≤ b.distance)) :
    (c.truncateIrrelevantResult l).Pairwise
      (fun a b => a.distance ≤ b.distance) := by
  unfold Collection.truncateIrrelevantResult
  by_cases h1 : c.relevancy = -1
  · rw [if_pos h1]
    exact hl
  · rw [if_neg h1]
    by_cases h2 : c.config.distance = Distance.euclidean
    · rw [if_pos h2]
      exact List.Pairwise.sublist (List.filter_sublist l) hl
    · rw [if_neg h2]
      exact List.Pairwise.sublist (List.filter_sublist l) hl

/-- The brute-force raw result list is sorted ascending by the computed
distance. -/
theorem trueRaw_pairwise (sq : ℚ → ℚ) (c : Collection) (v : Vec32) :
    (c.trueRaw sq v).Pairwise (fun a b => a.distance ≤ b.distance) := by
  unfold Collection.trueRaw
  have h := pairwise_sortByLe
    (fun a b : SearchResult => decide (a.distance ≤ b.distance))
    (fun a b => by
      rcases le_total a.distance b.distance with h | h
      · exact Or.inl (decide_eq_true h)
      · exact Or.inr (decide_eq_true h))
    (fun a b c h1 h2 => decide_eq_true
      (le_trans (of_decide_eq_true h1) (of_decide_eq_true h2)))
    (c.vectors.map
      (fun p => ⟨p.1, Distance.calc sq c.config.distance v p.2,
        (alookup c.data p.1).getD 0⟩))
  exact h.imp (fun h => of_decide_eq_true h)

/-- The engine raw result list is sorted ascending by the computed
distance (extraction sorts the nearest heap under `candLE`). -/
theorem searchRaw_pairwise (sq : ℚ → ℚ) (c : Collection) (v : Vec32)
    (seed : VectorID) :
    (c.searchRaw sq v seed).Pairwise
      (fun a b => a.distance ≤ b.distance) := by
  unfold Collection.searchRaw SearchState.results
  exact List.Pairwise.map _ (fun a b h => candLE_dist h)
    (pairwise_sortByLe candLE candLE_total candLE_trans _)

/-- C5 (amended): for every collection, query and `n`, the result lists
of `search` and `true_search` are monotonically non-decreasing in the raw
computed distance — for **every** kernel.  No sign flip is applied
anywhere, so for cosine and dot (higher raw value = nearer) this ascending
order is worst-first, not best-first as claimed; tie order is not part of
this statement (`true_search` breaks ties by map iteration order, not by
ascending VectorID). -/
theorem c5_ordering_amended (sq : ℚ → ℚ) (c : Collection) (v : Vec32)
    (n : ℕ) :
    (resultList (c.trueSearch sq v n)).Pairwise
      (fun a b => a.distance ≤ b.distance) ∧
    (resultList (c.search sq v n)).Pairwise
      (fun a b => a.distance ≤ b.distance) := by
  constructor
  · unfold Collection.trueSearch
    by_cases h2 : v.length ≠ c.dimension
    · rw [if_pos h2]
      exact List.Pairwise.nil
    · rw [if_neg h2]
      exact List.Pairwise.sublist (List.take_sublist _ _)
        (truncate_pairwise c _ (trueRaw_pairwise sq c v))
  · unfold Collection.search
    by_cases h1 : c.vectors.isEmpty = true
    · rw [if_pos h1]
      exact List.Pairwise.nil
    · rw [if_neg h1]
      by_cases h2 : v.length ≠ c.dimension
      · rw [if_pos h2]
        exact List.Pairwise.nil
      · rw [if_neg h2]
        cases hs : c.slots.find? (fun id => VectorID.isValid id) with
        | none => exact List.Pairwise.nil
        | some seed =>
          exact List.Pairwise.sublist (List.take_sublist _ _)
            (truncate_pairwise c _ (searchRaw_pairwise sq c v seed))

/-- A two-record collection over the dot kernel (each record the other's
base-layer neighbor; invariants I1-I5 hold), used to refute the claimed
ordering direction. -/
def dotC : Collection :=
  { config := { Config.init with distance := Distance.dot },
    relevancy := -1,
    data := [(0, 100), (1, 101)],
    vectors := [(0, [1]), (1, [2])], slots := [0, 1],
    baseLayer := [⟨1 :: List.replicate 63 INVALID⟩,
      ⟨0 :: List.replicate 63 INVALID⟩],
    upperLayers := [], count := 2, dimension := 1 }

/-- Counterexample to C5 as stated: with the dot kernel (higher raw value
= nearer), `true_search` for query `[1]` returns the results in
**ascending** raw value order — distances `[1, 2]` — whereas the claimed
comparator for dot demands descending raw value (`1 ≥ 2` fails), so the
returned list is worst-first, not best-first. -/
theorem c5_true_search_dot_not_best_first :
    dotC.config.distance = Distance.dot ∧
    dotC.trueSearch (fun x => x) [1] 2 =
      Except.ok [⟨0, 1, 100⟩, ⟨1, 2, 101⟩] ∧
    ¬ ((1 : ℚ) ≥ 2) := by
  refine ⟨rfl, ?_, by norm_num⟩
  norm_num [Collection.trueSearch, Collection.trueRaw,
    Collection.truncateIrrelevantResult, sortByLe, insertSorted,
    Distance.calc, Distance.calculate, Distance.dotProduct, alookup,
    dotC, Config.init]

end VectorDB
